import Mathlib

/-!
Verification development for the pytokio core: time-indexed path template
resolution (`tokio.tools.common.enumerate_dated_files`), provider-chain fact
resolution (`tokio.tools.jobinfo.get_job_startend`), per-period time-series
assembly (`tokio.tools.hdf5`), the caching connector serialization round
trip, and the `archive_mmperfmon` shell driver.  Python/bash sources are
embedded shallowly: timestamps are seconds since the Unix epoch (`Nat`),
calendar conversion is explicit civil-date arithmetic, and fallible
operations return sum types.
-/

namespace Tokio

/-- Seconds per period.  A period file covers one calendar day. -/
def secPerDay : Nat := 86400

/-- Index of the period (day) containing an epoch timestamp. -/
def periodOf (t : Nat) : Nat := t / secPerDay

/-- Modelled from the spec: the ordered list of day indices whose period
intersects the half-open range `[s, e)`; a zero-length range still yields
the one period containing `s`.  (The pytokio implementation
`tokio.tools.common.enumerate_dated_files` is not part of this source
snapshot; only its documentation and configuration are.) -/
def periodList (s e : Nat) : List Nat :=
  let p0 := periodOf s
  let p1 := if s < e then periodOf (e - 1) else p0
  List.range' p0 (p1 + 1 - p0)

/-- A calendar date in the proleptic Gregorian calendar. -/
structure CivilDate where
  year : Nat
  month : Nat
  day : Nat
deriving DecidableEq, Repr

/-- Civil date from a count of days since 1970-01-01 (era-based algorithm,
valid for all days at or after the epoch). -/
def civilFromDays (z : Nat) : CivilDate :=
  let z' := z + 719468
  let era := z' / 146097
  let doe := z' % 146097
  let yoe := (doe - doe / 1460 + doe / 36524 - doe / 146096) / 365
  let y := yoe + era * 400
  let doy := doe - (365 * yoe + yoe / 4 - yoe / 100)
  let mp := (5 * doy + 2) / 153
  let d := doy - (153 * mp + 2) / 5 + 1
  let m := if mp < 10 then mp + 3 else mp - 9
  { year := if m ≤ 2 then y + 1 else y, month := m, day := d }

/-- ASCII digit character for `n < 10`. -/
def digitChar (n : Nat) : Char := Char.ofNat (48 + n % 10)

/-- Two-digit zero-padded decimal rendering. -/
def pad2 (n : Nat) : List Char := [digitChar (n / 10), digitChar n]

/-- Four-digit zero-padded decimal rendering. -/
def pad4 (n : Nat) : List Char :=
  [digitChar (n / 1000), digitChar (n / 100), digitChar (n / 10), digitChar n]

/-- Expansion of one strftime conversion specifier at the start of a day
period; `none` marks a placeholder the resolver cannot satisfy. -/
def specChar (c : Char) (d : CivilDate) : Option (List Char) :=
  if c = 'Y' then some (pad4 d.year)
  else if c = 'm' then some (pad2 d.month)
  else if c = 'd' then some (pad2 d.day)
  else if c = 'H' then some ['0', '0']
  else if c = 'M' then some ['0', '0']
  else if c = 'S' then some ['0', '0']
  else if c = '%' then some ['%']
  else none

/-- strftime over a character list; `pending` records that the previous
character was an unconsumed `%`.  Expands `%`-specifiers against a civil
date, failing on an unsupported specifier or a trailing `%`. -/
def fmtCharsSt : Bool → List Char → CivilDate → Option (List Char)
  | false, [], _ => some []
  | true, [], _ => none
  | false, c :: rest, d =>
    if c = '%' then fmtCharsSt true rest d
    else
      match fmtCharsSt false rest d with
      | some tail => some (c :: tail)
      | none => none
  | true, c :: rest, d =>
    match specChar c d, fmtCharsSt false rest d with
    | some s, some tail => some (s ++ tail)
    | _, _ => none

/-- strftime over a character list (no pending specifier). -/
def fmtChars (cs : List Char) (d : CivilDate) : Option (List Char) :=
  fmtCharsSt false cs d

/-- Format a literal pattern for the period with day index `p`. -/
def fmtDay (pat : String) (p : Nat) : Option String :=
  match fmtChars pat.data (civilFromDays p) with
  | some cs => some (String.mk cs)
  | none => none

/-- A pattern is well formed when its placeholders can all be satisfied;
by `fmtChars_isSome` this does not depend on the date formatted. -/
def wellFormed (pat : String) : Bool :=
  (fmtDay pat 0).isSome

mutual

/-- A time-indexed file path template: a literal strftime pattern, an
ordered list of alternative patterns, or a mapping from site-defined keys
to sub-templates (per the `site.json` documentation: str, list of str, or
dict processed recursively). -/
inductive Template where
  | literal : String → Template
  | alternatives : List String → Template
  | keyed : TemplateMap → Template

/-- Association list of selector keys to sub-templates (the dict form of a
time-indexed template). -/
inductive TemplateMap where
  | nil : TemplateMap
  | cons : String → Template → TemplateMap → TemplateMap

end

/-- Key lookup in the dict form of a template. -/
def TemplateMap.find : TemplateMap → String → Option Template
  | .nil, _ => none
  | .cons k t rest, key => if k = key then some t else rest.find key

mutual

/-- Modelled from the spec: descend a template (with optional selector
key) to the ordered list of literal patterns that apply; `none` marks a
configuration error (a dict template reached without a usable selector
key).  Embeds the template-descent half of
`tokio.tools.common.enumerate_dated_files`, whose implementation is
absent from this source snapshot. -/
def templatePatterns : Template → Option String → Option (List String)
  | .literal pat, _ => some [pat]
  | .alternatives pats, _ => some pats
  | .keyed _, none => none
  | .keyed m, some k => keyedPatterns m k

/-- Selector-key dispatch for the dict form: find the sub-template named
by the key and continue recursively; a missing key is a configuration
error. -/
def keyedPatterns : TemplateMap → String → Option (List String)
  | .nil, _ => none
  | .cons k' t rest, k =>
    if k' = k then templatePatterns t (some k) else keyedPatterns rest k

end

/-- Outcome of template resolution. -/
inductive ResolveResult where
  | ok : List String → ResolveResult
  | configError : ResolveResult
deriving DecidableEq, Repr

/-- Option-valued traversal of a list: succeeds with the list of images
exactly when `f` succeeds on every element. -/
def mapOpt {γ δ : Type} (f : γ → Option δ) : List γ → Option (List δ)
  | [] => some []
  | x :: xs =>
    match f x, mapOpt f xs with
    | some y, some ys => some (y :: ys)
    | _, _ => none

/-- Format every pattern of a per-period candidate group for day `p`;
fails when some pattern holds an unsatisfiable placeholder. -/
def groupFor (pats : List String) (p : Nat) : Option (List String) :=
  mapOpt (fun pat => fmtDay pat p) pats

/-- Modelled from the spec: resolve a template against the half-open
range `[s, e)`, producing each period's candidate paths in chronological
order (the flattening of one path-group per period).  Dict templates
without a selector key and unsatisfiable placeholders yield
a configuration error. -/
def resolve (tpl : Template) (key : Option String) (s e : Nat) : ResolveResult :=
  match templatePatterns tpl key with
  | none => .configError
  | some pats =>
    match mapOpt (fun p => groupFor pats p) (periodList s e) with
    | none => .configError
    | some groups => .ok groups.flatten

/-- Modelled from the spec: resolve a template for the single period
containing the timestamp `t`. -/
def resolveOne (tpl : Template) (key : Option String) (t : Nat) : ResolveResult :=
  match templatePatterns tpl key with
  | none => .configError
  | some pats =>
    match groupFor pats (periodOf t) with
    | none => .configError
    | some g => .ok g

/-! ### Provider chain (`tokio.tools.jobinfo.get_job_startend` and friends) -/

/-- Outcome of invoking one provider: a successful result, a typed
non-fatal no-data signal, or a fatal backend error with a message. -/
inductive ProviderResult (β : Type) where
  | success : β → ProviderResult β
  | noData : ProviderResult β
  | fatal : String → ProviderResult β

/-- Aggregate outcome of a provider chain. -/
inductive ChainOutcome (β : Type) where
  | found : β → String → ChainOutcome β
  | notFound : List String → ChainOutcome β
  | configError : String → ChainOutcome β

/-- A provider registry: named capability implementations. -/
def Registry (α β : Type) : Type := List (String × (α → ProviderResult β))

/-- Registry lookup by provider name. -/
def Registry.find {α β : Type} : Registry α β → String → Option (α → ProviderResult β)
  | [], _ => none
  | (n, impl) :: rest, name => if n = name then some impl else Registry.find rest name

/-- Modelled from the spec: try the configured providers in order; a
missing registration is a configuration error, first success wins and
reports the answering provider's name, no-data skips to the next
provider, a fatal provider error is recorded as a diagnostic and the
chain continues; exhaustion yields the not-found outcome with the
accumulated diagnostics.  (Embeds the provider-loop of
`tokio.tools.jobinfo.get_job_startend`, absent from this source
snapshot.) -/
def chainResolveAux {α β : Type} (reg : Registry α β) (req : α) :
    List String → List String → ChainOutcome β
  | [], diags => .notFound diags.reverse
  | name :: rest, diags =>
    match reg.find name with
    | none => .configError name
    | some impl =>
      match impl req with
      | .success b => .found b name
      | .noData => chainResolveAux reg req rest diags
      | .fatal msg => chainResolveAux reg req rest ((name ++ ": " ++ msg) :: diags)

/-- Modelled from the spec: resolve a capability request through an
ordered provider list. -/
def chain_resolve {α β : Type} (reg : Registry α β) (names : List String) (req : α) :
    ChainOutcome β :=
  chainResolveAux reg req names []

/-! ### PeriodFileStore (`tokio.connectors.hdf5`) -/

/-- A named 2-D dataset inside one period file: a row-major matrix over
time steps, an aligned 1-D timestamp index, entity labels for the other
axis, and an optional 0/1 missing-data matrix. -/
structure Dataset where
  timestamps : List Nat
  columns : List String
  matrix : List (List Int)
  missing : Option (List (List Nat))
deriving DecidableEq, Repr

/-- Executable check that a list of timestamps is strictly ascending. -/
def ascChk : List Nat → Bool
  | [] => true
  | [_] => true
  | a :: b :: rest => decide (a < b) && ascChk (b :: rest)

/-- Shape check: same number of rows and the same length row by row. -/
def sameShape (mat : List (List Int)) (msk : List (List Nat)) : Bool :=
  decide (mat.map List.length = msk.map List.length)

/-- A 0/1 matrix check for a missing-data mask. -/
def boolMatrix (msk : List (List Nat)) : Bool :=
  msk.all (fun row => row.all (fun x => x = 0 || x = 1))

/-- Structural validity of a dataset: strictly ascending timestamp index
aligned to the row axis, rows of equal width matching the entity labels,
and, when present, a missing-data mask of identical shape holding only
0/1 entries. -/
def validDataset (d : Dataset) : Bool :=
  ascChk d.timestamps &&
  decide (d.matrix.length = d.timestamps.length) &&
  d.matrix.all (fun row => row.length = d.columns.length) &&
  (match d.missing with
   | none => true
   | some msk => sameShape d.matrix msk && boolMatrix msk)

/-- A period-file store: what the filesystem holds at each path (a file
is a finite collection of named datasets). -/
def FileStore : Type := String → Option (List (String × Dataset))

/-- Outcome of reading one dataset out of one period file. -/
inductive ReadResult where
  | ok : Dataset → ReadResult
  | fileAbsent : ReadResult
  | datasetAbsent : ReadResult
  | corruptData : ReadResult
deriving DecidableEq

/-- Association-list lookup of a dataset by name. -/
def findDataset : List (String × Dataset) → String → Option Dataset
  | [], _ => none
  | (n, d) :: rest, name => if n = name then some d else findDataset rest name

/-- Modelled from the spec: open the container at `path` and return the
named dataset; an absent container is the non-fatal file-absent outcome,
an absent dataset is distinguishable from it, and malformed data (wrong
shape, non-monotonic timestamps) is the corrupt-data outcome.  (Embeds
the read path of `tokio.connectors.hdf5.Hdf5`, absent from this source
snapshot; the structural assertions match the repository's HDF5
regression script.) -/
def read (store : FileStore) (path name : String) : ReadResult :=
  match store path with
  | none => .fileAbsent
  | some dsets =>
    match findDataset dsets name with
    | none => .datasetAbsent
    | some d => if validDataset d then .ok d else .corruptData

/-! ### TimeSeriesAssembler (`tokio.tools.hdf5.get_dataframe_from_time_range`) -/

/-- Per-period series data: timestamped samples of the queried metric. -/
abbrev PeriodData : Type := List (Nat × Int)

/-- A series store: which period files exist on disk, and the metric
samples each one holds. -/
def SeriesStore : Type := String → Option PeriodData

/-- Try each candidate path of one period in template order and use the
first that exists. -/
def firstExisting (fs : SeriesStore) : List String → Option PeriodData
  | [] => none
  | path :: rest =>
    match fs path with
    | some d => some d
    | none => firstExisting fs rest

/-- Trim one period's samples to the half-open query window `[s, e)`. -/
def trim (d : PeriodData) (s e : Nat) : PeriodData :=
  d.filter (fun te => decide (s ≤ te.1) && decide (te.1 < e))

/-- The subrange of the query window `[s, e)` covered by period `p`. -/
def clip (p s e : Nat) : Nat × Nat :=
  (max s (p * secPerDay), min e ((p + 1) * secPerDay))

/-- The assembler's output: concatenated trimmed samples in chronological
order plus an explicit list of missing time subranges. -/
structure AssembledSeries where
  data : PeriodData
  missingRanges : List (Nat × Nat)
deriving DecidableEq, Repr

/-- Outcome of a series query. -/
inductive QueryResult where
  | ok : AssembledSeries → QueryResult
  | incompleteData : QueryResult
  | configError : QueryResult
deriving DecidableEq, Repr

/-- One assembly step: read period `p` through its candidate paths; a hit
appends that period's trimmed samples, a miss records the period's
subrange of the query window as missing. -/
def assembleStep (fs : SeriesStore) (pats : List String) (s e : Nat)
    (acc : PeriodData × List (Nat × Nat)) (p : Nat) : PeriodData × List (Nat × Nat) :=
  match groupFor pats p with
  | none => acc
  | some g =>
    match firstExisting fs g with
    | some d => (acc.1 ++ trim d s e, acc.2)
    | none => (acc.1, acc.2 ++ [clip p s e])

/-- Modelled from the spec: assemble the named metric over `[s, e)` by
resolving the template to per-period candidate path-groups, reading each
period through the first existing candidate, trimming each period's
samples to the query window, concatenating in chronological order, and
recording each absent period's subrange as missing; under strict mode any
missing period aborts the whole query with the incomplete-data outcome.
(Embeds `tokio.tools.hdf5.get_dataframe_from_time_range`, absent from
this source snapshot.) -/
def query_series (fs : SeriesStore) (tpl : Template) (key : Option String)
    (s e : Nat) (strict : Bool) : QueryResult :=
  match templatePatterns tpl key with
  | none => .configError
  | some pats =>
    match mapOpt (fun p => groupFor pats p) (periodList s e) with
    | none => .configError
    | some _ =>
      let acc := (periodList s e).foldl (assembleStep fs pats s e) ([], [])
      if strict && !acc.2.isEmpty then .incompleteData
      else .ok { data := acc.1, missingRanges := acc.2 }

/-! ### CachingConnector (`tokio.connectors.cachingdb`) -/

/-- A caching connector: a live remote backend plus the accumulated
query-result cache. -/
structure CachingConnector (α β : Type) where
  remote : α → β
  cache : List (α × β)

/-- Cache lookup by canonicalized query. -/
def cacheFind {α β : Type} [DecidableEq α] : List (α × β) → α → Option β
  | [], _ => none
  | (q, r) :: rest, query => if q = query then some r else cacheFind rest query

/-- Modelled from the spec: answer `query` from the local cache when
possible, otherwise perform the remote call and store the result; returns
the result, the updated connector, and whether the remote backend was
invoked.  (Embeds the caching layer of `tokio.connectors.cachingdb`,
absent from this source snapshot.) -/
def CachingConnector.get {α β : Type} [DecidableEq α]
    (c : CachingConnector α β) (query : α) : β × CachingConnector α β × Bool :=
  match cacheFind c.cache query with
  | some r => (r, c, false)
  | none =>
    let r := c.remote query
    (r, ⟨c.remote, (query, r) :: c.cache⟩, true)

/-- Modelled from the spec: serialize the accumulated cache to a portable
local format (the cache's contents, verbatim). -/
def export_cache {α β : Type} (c : CachingConnector α β) : List (α × β) :=
  c.cache

/-- Modelled from the spec: build a connector from a previously exported
cache so a provider can replay it offline; `backend` is whatever remote
the new connector would fall back to on a cache miss. -/
def import_cache {α β : Type} (backend : α → β) (saved : List (α × β)) :
    CachingConnector α β :=
  ⟨backend, saved⟩

/-! ### Local-time formatting (the time-zone dependence the test harness
pins `TZ` to work around) -/

/-- Day index of the period containing epoch second `t` when formatting
goes through local time at a fixed UTC offset of `tz` seconds (embeds
strftime over a local-time broken-down date, as the repository's Python
code does; `run_tests.sh` pins `TZ=America/Los_Angeles` to work around
the resulting known bug). -/
def localPeriodOf (tz : Int) (t : Nat) : Nat := ((t : Int) + tz).toNat / secPerDay

/-- Period enumeration under a local-time policy at UTC offset `tz`. -/
def localPeriodList (tz : Int) (s e : Nat) : List Nat :=
  let p0 := localPeriodOf tz s
  let p1 := if s < e then localPeriodOf tz (e - 1) else p0
  List.range' p0 (p1 + 1 - p0)

/-- Literal-template resolution when timestamps are formatted through
the ambient process time zone (offset `tz` seconds from UTC) rather than
one consistent zone. -/
def resolveLocalLiteral (pat : String) (tz : Int) (s e : Nat) : Option (List String) :=
  (localPeriodList tz s e).mapM (fun p => fmtDay pat p)

/-! ### The `archive_mmperfmon` shell driver (`getopts` and the FORCE
guard) -/

/-- POSIX one-argument test `[ s ]`: true exactly when `s` is non-empty. -/
def bashTestOneArg (s : String) : Bool := !s.isEmpty

/-- POSIX two-argument test `[ ! s ]`: the negated one-argument test. -/
def bashTestBang (s : String) : Bool := !bashTestOneArg s

/-- The value of the shell variable `FORCE` after `getopts` in
`archive_mmperfmon.sh`: initialized to the string `0` and set to the
string `1` when the `-f` flag is supplied. -/
def forceAfterGetopts (fFlag : Bool) : String := if fFlag then "1" else "0"

/-- The missing-output branch of the archive loop: the script exits early
exactly when the expected output file was not created and the guard
`[ ! $FORCE ]` holds. -/
def archiveLoopExitsEarly (fFlag outputCreated : Bool) : Bool :=
  !outputCreated && bashTestBang (forceAfterGetopts fFlag)

/-!
## Concrete fixtures

Small concrete stores and connectors used to instantiate the theorems
below at explicit inputs.
-/

/-- A three-day series store whose middle day's file is absent: day one
and day three of the epoch exist with one sample each. -/
def fsW : SeriesStore := fun p =>
  if p = "/x/1970-01-01.dat" then some [(3600, 5)]
  else if p = "/x/1970-01-03.dat" then some [(174000, 7)]
  else none

/-- A doubling backend with an empty initial cache. -/
def cw : CachingConnector Nat Nat := ⟨fun n => n * 2, []⟩

/-- A small structurally valid dataset: two ascending timestamps, one
entity column, and a 0/1 missing-data mask of matching shape. -/
def dsW : Dataset := ⟨[100, 160], ["ost0"], [[1], [2]], some [[0], [1]]⟩

/-- A one-file store holding `dsW` under the dataset name `ds`. -/
def storeW : FileStore := fun p =>
  if p = "f.h5" then some [("ds", dsW)] else none

/-!
## Helper lemmas
-/

theorem specChar_isSome (c : Char) (d d' : CivilDate) :
    (specChar c d).isSome = (specChar c d').isSome := by
  unfold specChar
  repeat' split
  all_goals rfl

theorem fmtCharsSt_isSome (d d' : CivilDate) (cs : List Char) :
    ∀ pending, (fmtCharsSt pending cs d).isSome = (fmtCharsSt pending cs d').isSome := by
  induction cs with
  | nil => intro p; cases p <;> rfl
  | cons c rest ih =>
    intro p
    cases p
    · simp only [fmtCharsSt]
      split
      · exact ih true
      · have ht := ih false
        cases h3 : fmtCharsSt false rest d <;> cases h4 : fmtCharsSt false rest d' <;> simp_all
    · simp only [fmtCharsSt]
      have hs := specChar_isSome c d d'
      have ht := ih false
      cases h1 : specChar c d <;> cases h2 : specChar c d' <;>
        cases h3 : fmtCharsSt false rest d <;> cases h4 : fmtCharsSt false rest d' <;> simp_all

/-- A well-formed pattern formats successfully for every period. -/
theorem fmtDay_isSome_of_wellFormed (pat : String) (p : Nat)
    (h : wellFormed pat = true) : ∃ out, fmtDay pat p = some out := by
  unfold wellFormed at h
  unfold fmtDay fmtChars at h ⊢
  have hiso := fmtCharsSt_isSome (civilFromDays 0) (civilFromDays p) pat.data false
  cases h3 : fmtCharsSt false pat.data (civilFromDays p) <;>
    cases h4 : fmtCharsSt false pat.data (civilFromDays 0) <;> simp_all

/-- A group of well-formed patterns formats successfully for every
period. -/
theorem groupFor_isSome_of_wellFormed (pats : List String) (p : Nat)
    (h : ∀ pat ∈ pats, wellFormed pat = true) :
    ∃ g, groupFor pats p = some g := by
  unfold groupFor
  induction pats with
  | nil => exact ⟨[], rfl⟩
  | cons a l ih =>
    obtain ⟨out, hout⟩ := fmtDay_isSome_of_wellFormed a p (h a (by simp))
    obtain ⟨g, hg⟩ := ih (fun pat hp => h pat (by simp [hp]))
    exact ⟨out :: g, by simp [mapOpt, hout, hg]⟩

/-- Period enumeration over a range of well-formed patterns succeeds. -/
theorem periods_mapOpt_isSome (pats : List String) (ps : List Nat)
    (h : ∀ pat ∈ pats, wellFormed pat = true) :
    ∃ groups, mapOpt (fun p => groupFor pats p) ps = some groups := by
  induction ps with
  | nil => exact ⟨[], rfl⟩
  | cons a l ih =>
    obtain ⟨g, hg⟩ := groupFor_isSome_of_wellFormed pats a h
    obtain ⟨gs, hgs⟩ := ih
    exact ⟨g :: gs, by simp [mapOpt, hg, hgs]⟩

/-- Resolving a zero-length range enumerates exactly the period of the
start timestamp. -/
theorem periodList_self (t : Nat) : periodList t t = [periodOf t] := by
  unfold periodList
  simp

/-- Selector-key dispatch agrees with map lookup: when the key is bound
in the dict, the dict's patterns are the selected sub-template's. -/
theorem keyedPatterns_find : ∀ (m : TemplateMap) (k : String) (tpl : Template),
    m.find k = some tpl → keyedPatterns m k = templatePatterns tpl (some k)
  | .nil, k, tpl, h => by simp [TemplateMap.find] at h
  | .cons k' t rest, k, tpl, h => by
    by_cases hk : k' = k
    · subst hk
      simp [TemplateMap.find] at h
      subst h
      simp [keyedPatterns]
    · simp [TemplateMap.find, hk] at h
      simp [keyedPatterns, hk]
      exact keyedPatterns_find rest k tpl h

/-- The executable ascending check agrees with the strict chain
predicate. -/
theorem ascChk_iff (l : List Nat) : ascChk l = true ↔ List.Chain' (· < ·) l := by
  induction l with
  | nil => simp [ascChk]
  | cons a t ih =>
    cases t with
    | nil => simp [ascChk]
    | cons b r =>
      rw [List.chain'_cons, ← ih]
      simp [ascChk]

/-- Cache lookup immediately after an insertion of the same key hits. -/
theorem cacheFind_cons_self {α β : Type} [DecidableEq α] (q : α) (r : β) (l : List (α × β)) :
    cacheFind ((q, r) :: l) q = some r := by
  simp [cacheFind]

/-!
## Claim theorems
-/

/-- C1: for every template (with usable selector and well-formed
patterns) and every non-degenerate time range, `resolve` succeeds and
returns the flattening of exactly one path-group per period, the
enumerated periods are strictly ascending (so no period repeats), and a
period is enumerated exactly when some timestamp of the range falls in
it (no intersecting period omitted, no other period included); each
group formats every literal pattern once for its period boundary, in
chronological order. -/
theorem resolve_ascending_complete (tpl : Template) (key : Option String)
    (pats : List String) (s e : Nat)
    (hp : templatePatterns tpl key = some pats)
    (hwf : ∀ pat ∈ pats, wellFormed pat = true)
    (hse : s < e) :
    List.Pairwise (· < ·) (periodList s e) ∧
    (∀ p, p ∈ periodList s e ↔ ∃ t, s ≤ t ∧ t < e ∧ periodOf t = p) ∧
    ∃ groups : List (List String),
      mapOpt (fun p => groupFor pats p) (periodList s e) = some groups ∧
      resolve tpl key s e = .ok groups.flatten := by
  refine ⟨?_, ?_, ?_⟩
  · exact List.pairwise_lt_range' _ _
  · intro p
    unfold periodList periodOf secPerDay
    simp only [List.mem_range'_1, if_pos hse]
    constructor
    · rintro ⟨h1, h2⟩
      refine ⟨max s (p * 86400), ?_, ?_, ?_⟩ <;> omega
    · rintro ⟨t, h1, h2, h3⟩
      omega
  · obtain ⟨groups, hgr⟩ := periods_mapOpt_isSome pats (periodList s e) hwf
    refine ⟨groups, hgr, ?_⟩
    simp [resolve, hp, hgr]

/-- Witness for C1 at a concrete template and range spanning two days of
the epoch. -/
theorem resolve_ascending_complete_witness :
    List.Pairwise (· < ·) (periodList 0 100000) ∧
    (∀ p, p ∈ periodList 0 100000 ↔ ∃ t, 0 ≤ t ∧ t < 100000 ∧ periodOf t = p) ∧
    ∃ groups : List (List String),
      mapOpt (fun p => groupFor ["/d/%Y-%m-%d"] p) (periodList 0 100000) = some groups ∧
      resolve (.literal "/d/%Y-%m-%d") none 0 100000 = .ok groups.flatten :=
  resolve_ascending_complete (.literal "/d/%Y-%m-%d") none ["/d/%Y-%m-%d"] 0 100000
    rfl (by decide) (by decide)

/-- C2: with configured provider order `[A, B]`, if A answers no-data
and B succeeds then `chain_resolve` returns B's result with
`provider_name = B`; if both answer no-data the outcome is not-found;
and if A is configured but unregistered the outcome is a configuration
error naming A, never a silent skip. -/
theorem chain_resolve_two_providers {α β : Type} (reg : Registry α β)
    (nA nB : String) (implA implB : α → ProviderResult β) (req : α)
    (hA : reg.find nA = some implA) (hB : reg.find nB = some implB) :
    (∀ b, implA req = .noData → implB req = .success b →
        chain_resolve reg [nA, nB] req = .found b nB) ∧
    (implA req = .noData → implB req = .noData →
        chain_resolve reg [nA, nB] req = .notFound []) ∧
    (∀ reg2 : Registry α β, Registry.find reg2 nA = none →
        chain_resolve reg2 [nA, nB] req = .configError nA) := by
  refine ⟨?_, ?_, ?_⟩
  · intro b h1 h2
    simp [chain_resolve, chainResolveAux, hA, h1, hB, h2]
  · intro h1 h2
    simp [chain_resolve, chainResolveAux, hA, h1, hB, h2]
  · intro reg2 h
    unfold chain_resolve chainResolveAux
    rw [h]

/-- Witness for C2: a `slurm`/`nersc_jobsdb` chain where `slurm` has no
data and `nersc_jobsdb` answers. -/
theorem chain_resolve_two_providers_witness :
    chain_resolve
        [("slurm", fun _ => ProviderResult.noData),
         ("nersc_jobsdb", fun _ => ProviderResult.success 42)]
        ["slurm", "nersc_jobsdb"] (0 : Nat) =
      .found 42 "nersc_jobsdb" :=
  (chain_resolve_two_providers
      [("slurm", fun _ => ProviderResult.noData),
       ("nersc_jobsdb", fun _ => ProviderResult.success 42)]
      "slurm" "nersc_jobsdb"
      (fun _ => ProviderResult.noData) (fun _ => ProviderResult.success 42)
      0 rfl rfl).1 42 rfl rfl

/-- C3: a query over a range spanning exactly three periods whose middle
period's file is absent returns, in non-strict mode, an assembled series
whose missing-ranges list is exactly the middle period's subrange and
whose data is the first and third periods' samples trimmed to the query
boundaries; in strict mode the same query yields the incomplete-data
outcome instead of partial data. -/
theorem query_series_missing_middle (fs : SeriesStore) (pat : String)
    (path0 path1 path2 : String) (d0 d2 : PeriodData) (s e : Nat)
    (hse : s < e)
    (hq : periodOf (e - 1) = periodOf s + 2)
    (hf0 : fmtDay pat (periodOf s) = some path0)
    (hf1 : fmtDay pat (periodOf s + 1) = some path1)
    (hf2 : fmtDay pat (periodOf s + 2) = some path2)
    (hs0 : fs path0 = some d0)
    (hs1 : fs path1 = none)
    (hs2 : fs path2 = some d2) :
    query_series fs (.literal pat) none s e false =
      .ok { data := trim d0 s e ++ trim d2 s e,
            missingRanges := [((periodOf s + 1) * secPerDay, (periodOf s + 2) * secPerDay)] } ∧
    query_series fs (.literal pat) none s e true = .incompleteData := by
  have hpl : periodList s e = [periodOf s, periodOf s + 1, periodOf s + 2] := by
    have h3 : periodOf s + 2 + 1 - periodOf s = 3 := by omega
    simp only [periodList, hse, if_true, hq, h3]
    rfl
  have hclip : clip (periodOf s + 1) s e =
      ((periodOf s + 1) * secPerDay, (periodOf s + 2) * secPerDay) := by
    have hlt : s < (periodOf s + 1) * secPerDay := by
      unfold periodOf secPerDay; omega
    have hge : (periodOf s + 2) * secPerDay ≤ e := by
      unfold periodOf secPerDay at hq ⊢; omega
    unfold clip
    rw [Nat.max_eq_right (Nat.le_of_lt hlt), Nat.min_eq_right hge]
  have hfold :
      (periodList s e).foldl (assembleStep fs [pat] s e) ([], []) =
      (trim d0 s e ++ trim d2 s e,
        [((periodOf s + 1) * secPerDay, (periodOf s + 2) * secPerDay)]) := by
    rw [hpl]
    simp only [List.foldl_cons, List.foldl_nil]
    simp [assembleStep, groupFor, mapOpt, hf0, hf1, hf2, hs0, hs1, hs2,
          firstExisting, hclip]
  have hmap : mapOpt (fun p => groupFor [pat] p) (periodList s e) =
      some [[path0], [path1], [path2]] := by
    rw [hpl]
    simp [mapOpt, groupFor, hf0, hf1, hf2]
  constructor
  · simp [query_series, templatePatterns, hmap, hfold]
  · simp [query_series, templatePatterns, hmap, hfold]

/-- Witness for C3: a concrete three-day query over `fsW` (day two's
file absent) with the middle day reported missing, in both modes. -/
theorem query_series_missing_middle_witness :
    query_series fsW (.literal "/x/%Y-%m-%d.dat") none 3600 180000 false =
      .ok { data := [(3600, 5), (174000, 7)], missingRanges := [(86400, 172800)] } ∧
    query_series fsW (.literal "/x/%Y-%m-%d.dat") none 3600 180000 true =
      .incompleteData := by
  have h := query_series_missing_middle fsW "/x/%Y-%m-%d.dat"
      "/x/1970-01-01.dat" "/x/1970-01-02.dat" "/x/1970-01-03.dat"
      [(3600, 5)] [(174000, 7)] 3600 180000
      (by decide) (by decide) (by decide) (by decide) (by decide) rfl rfl rfl
  exact ⟨h.1.trans (by decide), h.2⟩

/-- C4: the map-typed template binding `cscratch` to
`/data/%Y-%m-%d/cscratch.dat`, resolved with selector `cscratch` against
the half-open range from 2017-05-17T21:35:25 to 2017-05-18T09:35:53
(epoch seconds 1495056925 and 1495100153), yields exactly the 2017-05-17
path followed by the 2017-05-18 path. -/
theorem resolve_cscratch_example :
    resolve (.keyed (.cons "cscratch" (.literal "/data/%Y-%m-%d/cscratch.dat") .nil))
      (some "cscratch") 1495056925 1495100153 =
      .ok ["/data/2017-05-17/cscratch.dat", "/data/2017-05-18/cscratch.dat"] := by
  decide

/-- C5: resolving the zero-length range `[t, t)` enumerates exactly the
one period containing `t` (the enumeration is the singleton of the
period of `t`, whose day window indeed contains `t`), agrees with
single-period resolution, and for a well-formed literal pattern yields
exactly one path. -/
theorem resolve_zero_length_range (tpl : Template) (key : Option String) (t : Nat) :
    periodList t t = [periodOf t] ∧
    periodOf t * secPerDay ≤ t ∧ t < (periodOf t + 1) * secPerDay ∧
    resolve tpl key t t = resolveOne tpl key t ∧
    (∀ pat, wellFormed pat = true →
      ∃ path, resolve (.literal pat) none t t = .ok [path]) := by
  refine ⟨periodList_self t, ?_, ?_, ?_, ?_⟩
  · unfold periodOf secPerDay; omega
  · unfold periodOf secPerDay; omega
  · unfold resolve resolveOne
    cases hp : templatePatterns tpl key with
    | none => rfl
    | some pats =>
      rw [periodList_self]
      cases hg : groupFor pats (periodOf t) <;> simp [mapOpt, hg]
  · intro pat hwf
    obtain ⟨out, hout⟩ := fmtDay_isSome_of_wellFormed pat (periodOf t) hwf
    refine ⟨out, ?_⟩
    unfold resolve templatePatterns
    rw [periodList_self]
    simp [mapOpt, groupFor, hout]

/-- Witness for C5 at a concrete template and timestamp. -/
theorem resolve_zero_length_range_witness :
    periodList 5 5 = [periodOf 5] ∧
    periodOf 5 * secPerDay ≤ 5 ∧ 5 < (periodOf 5 + 1) * secPerDay ∧
    resolve (.alternatives ["/a/%Y", "/b/%Y"]) none 5 5 =
      resolveOne (.alternatives ["/a/%Y", "/b/%Y"]) none 5 ∧
    (∀ pat, wellFormed pat = true →
      ∃ path, resolve (.literal pat) none 5 5 = .ok [path]) :=
  resolve_zero_length_range (.alternatives ["/a/%Y", "/b/%Y"]) none 5

/-- C6: a map-typed template resolved without a selector key fails with
a configuration error; with a selector key bound in the mapping, the
selected sub-template is resolved recursively (resolution equals the
sub-template's own resolution). -/
theorem keyed_template_selector (m : TemplateMap) (k : String) (tpl : Template)
    (s e : Nat) (h : m.find k = some tpl) :
    resolve (.keyed m) none s e = .configError ∧
    resolve (.keyed m) (some k) s e = resolve tpl (some k) s e := by
  constructor
  · rfl
  · unfold resolve
    rw [show templatePatterns (.keyed m) (some k) = keyedPatterns m k from rfl,
        keyedPatterns_find m k tpl h]

/-- Witness for C6 at a concrete one-entry map template. -/
theorem keyed_template_selector_witness :
    resolve (.keyed (.cons "cscratch" (.literal "/a/%Y") .nil)) none 0 5 = .configError ∧
    resolve (.keyed (.cons "cscratch" (.literal "/a/%Y") .nil)) (some "cscratch") 0 5 =
      resolve (.literal "/a/%Y") (some "cscratch") 0 5 :=
  keyed_template_selector (.cons "cscratch" (.literal "/a/%Y") .nil) "cscratch"
    (.literal "/a/%Y") 0 5 rfl

/-- C7: exporting a caching connector's accumulated cache and importing
it yields a connector that, for every query previously answered through
the original, returns the identical result without invoking the remote
backend (and the original connector likewise answers from cache). -/
theorem cache_roundtrip {α β : Type} [DecidableEq α] (c0 : CachingConnector α β)
    (q : α) (backend : α → β) :
    ((import_cache backend (export_cache (c0.get q).2.1)).get q).1 = (c0.get q).1 ∧
    ((import_cache backend (export_cache (c0.get q).2.1)).get q).2.2 = false ∧
    (((c0.get q).2.1).get q).1 = (c0.get q).1 ∧
    (((c0.get q).2.1).get q).2.2 = false := by
  cases h : cacheFind c0.cache q with
  | some r =>
    simp [CachingConnector.get, export_cache, import_cache, h]
  | none =>
    simp [CachingConnector.get, export_cache, import_cache, h, cacheFind_cons_self]

/-- Witness for C7 on the concrete connector `cw` and query 7. -/
theorem cache_roundtrip_witness :
    ((import_cache (fun n => n + 1) (export_cache (cw.get 7).2.1)).get 7).1 = (cw.get 7).1 ∧
    ((import_cache (fun n => n + 1) (export_cache (cw.get 7).2.1)).get 7).2.2 = false ∧
    (((cw.get 7).2.1).get 7).1 = (cw.get 7).1 ∧
    (((cw.get 7).2.1).get 7).2.2 = false :=
  cache_roundtrip cw 7 (fun n => n + 1)

/-- C8: formatting through the ambient process time zone makes resolved
paths depend on the `TZ` setting: the same template and instant yield
different path lists under UTC (offset 0) and under the
`America/Los_Angeles` summer offset (-25200 s), at epoch second
1495072800 (2017-05-18T02:00:00 UTC).  This refutes time-zone
independence for the local-time formatting the code uses (the known bug
`run_tests.sh` works around by pinning `TZ`). -/
theorem resolve_localtime_tz_dependent :
    resolveLocalLiteral "/data/%Y-%m-%d/cscratch.dat" 0 1495072800 1495072800 ≠
      resolveLocalLiteral "/data/%Y-%m-%d/cscratch.dat" (-25200) 1495072800 1495072800 := by
  decide

/-- C9: every dataset returned by a successful period-file read has a
strictly ascending timestamp index (in particular its first entry is
strictly below its last whenever it has at least two), and its optional
missing-data mask has the same shape as the data matrix and holds only
0/1 entries. -/
theorem read_dataset_invariants (store : FileStore) (path name : String) (d : Dataset)
    (h : read store path name = .ok d) :
    List.Chain' (· < ·) d.timestamps ∧
    (∀ a b, d.timestamps.head? = some a → d.timestamps.getLast? = some b →
        2 ≤ d.timestamps.length → a < b) ∧
    (∀ msk, d.missing = some msk →
        d.matrix.map List.length = msk.map List.length ∧
        ∀ row ∈ msk, ∀ x ∈ row, x = 0 ∨ x = 1) := by
  unfold read at h
  cases hs : store path with
  | none => simp only [hs] at h; exact absurd h (by simp)
  | some dsets =>
    simp only [hs] at h
    cases hf : findDataset dsets name with
    | none => simp only [hf] at h; exact absurd h (by simp)
    | some d0 =>
      simp only [hf] at h
      by_cases hv : validDataset d0 = true
      · rw [if_pos hv] at h
        have hd : d0 = d := by injection h
        subst hd
        unfold validDataset at hv
        simp only [Bool.and_eq_true, decide_eq_true_eq] at hv
        obtain ⟨⟨⟨hasc, _hlen⟩, _hrows⟩, hmiss⟩ := hv
        have hchain : List.Chain' (· < ·) d0.timestamps := (ascChk_iff _).mp hasc
        refine ⟨hchain, ?_, ?_⟩
        · intro a b ha hb hlen2
          have hpw : List.Pairwise (· < ·) d0.timestamps :=
            List.chain'_iff_pairwise.mp hchain
          cases hts : d0.timestamps with
          | nil => rw [hts] at ha; exact absurd ha (by simp)
          | cons x xs =>
            cases hxs : xs with
            | nil => rw [hts, hxs] at hlen2; simp at hlen2
            | cons y ys =>
              rw [hts] at ha
              have hax : a = x := by simp at ha; exact ha.symm
              rw [hts, hxs] at hb
              rw [List.getLast?_cons_cons] at hb
              have hbmem : b ∈ y :: ys := List.mem_of_getLast?_eq_some hb
              rw [hts, hxs] at hpw
              have := (List.pairwise_cons.mp hpw).1 b hbmem
              omega
        · intro msk hmsk
          rw [hmsk] at hmiss
          simp only [Bool.and_eq_true] at hmiss
          obtain ⟨hshape, hbool⟩ := hmiss
          refine ⟨by simpa [sameShape] using hshape, ?_⟩
          intro row hrow x hx
          unfold boolMatrix at hbool
          rw [List.all_eq_true] at hbool
          have := hbool row hrow
          rw [List.all_eq_true] at this
          have := this x hx
          simpa using this
      · rw [if_neg hv] at h; exact absurd h (by simp)

/-- Witness for C9 on the concrete store `storeW` and dataset `dsW`. -/
theorem read_dataset_invariants_witness :
    List.Chain' (· < ·) dsW.timestamps ∧
    (∀ a b, dsW.timestamps.head? = some a → dsW.timestamps.getLast? = some b →
        2 ≤ dsW.timestamps.length → a < b) ∧
    (∀ msk, dsW.missing = some msk →
        dsW.matrix.map List.length = msk.map List.length ∧
        ∀ row ∈ msk, ∀ x ∈ row, x = 0 ∨ x = 1) :=
  read_dataset_invariants storeW "f.h5" "ds" dsW (by decide)

/-- C10: after option parsing in `archive_mmperfmon.sh`, `FORCE` is the
non-empty string `0` or `1` in every run, so the `[ ! $FORCE ]` guard on
the missing-output branch is false either way: the script never exits
early on a missing output file and always advances to the next day,
with or without `-f`. -/
theorem force_guard_always_advances (fFlag outputCreated : Bool) :
    (forceAfterGetopts fFlag = "0" ∨ forceAfterGetopts fFlag = "1") ∧
    forceAfterGetopts fFlag ≠ "" ∧
    archiveLoopExitsEarly fFlag outputCreated = false := by
  cases fFlag <;> cases outputCreated <;>
    exact ⟨by simp [forceAfterGetopts], by decide, by decide⟩

/-- Witness for C10 at concrete flag values (no `-f`, output missing). -/
theorem force_guard_always_advances_witness :
    (forceAfterGetopts false = "0" ∨ forceAfterGetopts false = "1") ∧
    forceAfterGetopts false ≠ "" ∧
    archiveLoopExitsEarly false false = false :=
  force_guard_always_advances false false

end Tokio
